import Mathlib

/-!
Verification of the Gemini protocol bridge (src/api/index.py).

Strings are modelled as `List Char`.  Python's `str.replace(old, new)` with a
one- or two-character pattern is modelled by `pyReplace1` / `pyReplace2`
(leftmost, non-overlapping scan, exactly as CPython performs it).
-/
/-- Model of Python `s.replace(p, rep)` for a single-character pattern `p`. -/
def pyReplace1 (p : Char) (rep : List Char) : List Char → List Char
  | [] => []
  | c :: cs => if c = p then rep ++ pyReplace1 p rep cs else c :: pyReplace1 p rep cs

/-- Model of Python `s.replace(p₁p₂, rep)` for a two-character pattern:
leftmost match, skip both matched characters, non-overlapping. -/
def pyReplace2 (p₁ p₂ : Char) (rep : List Char) : List Char → List Char
  | [] => []
  | [c] => [c]
  | c₁ :: c₂ :: cs =>
      if c₁ = p₁ ∧ c₂ = p₂ then rep ++ pyReplace2 p₁ p₂ rep cs
      else c₁ :: pyReplace2 p₁ p₂ rep (c₂ :: cs)

/-- `build_payload` line 171:
`prompt.replace('\\','\\\\').replace('"','\\"').replace('\n','\\n')`. -/
def escape_prompt (s : List Char) : List Char :=
  pyReplace1 '\n' ['\\', 'n'] (pyReplace1 '\"' ['\\', '\"'] (pyReplace1 '\\' ['\\', '\\'] s))

/-- `parse_streaming_response` line 292:
`full_text.replace('\\n','\n').replace('\\"','"').replace('\\\\','\\')`. -/
def unescape_text (s : List Char) : List Char :=
  pyReplace2 '\\' '\\' ['\\'] (pyReplace2 '\\' '\"' ['\"'] (pyReplace2 '\\' 'n' ['\n'] s))

/-- Concatenation of a character-wise expansion (used to reason about the
replace chains; `charBind f s` maps each character to a block). -/
def charBind (f : Char → List Char) : List Char → List Char
  | [] => []
  | c :: cs => f c ++ charBind f cs

/-- The per-character effect of the encoder's three replaces. -/
def escChar (c : Char) : List Char :=
  if c = '\\' then ['\\', '\\']
  else if c = '\"' then ['\\', '\"']
  else if c = '\n' then ['\\', 'n']
  else [c]

/-- Per-character state after undoing the `\n` escape. -/
def unesc1Char (c : Char) : List Char :=
  if c = '\\' then ['\\', '\\']
  else if c = '\"' then ['\\', '\"']
  else [c]

/-- Per-character state after undoing the `\n` and `\"` escapes. -/
def unesc2Char (c : Char) : List Char :=
  if c = '\\' then ['\\', '\\'] else [c]

/-!
JSON model.  The decoder calls Python's `json.loads`.  We model JSON values
with `JVal` (numbers keep their raw literal text: the decoder never reads a
numeric value, it only shape-checks) and `json_loads` as a recursive-descent
parser of the JSON grammar as CPython's strict decoder accepts it (including
the `NaN` / `Infinity` / `-Infinity` extensions; lone `\uXXXX` surrogates,
unrepresentable in `Char`, degrade to a replacement code point).
-/
inductive JVal where
  | null
  | bool (b : Bool)
  | num (raw : List Char)
  | str (s : List Char)
  | arr (items : List JVal)
  | obj (fields : List (List Char × JVal))

/-- JSON insignificant whitespace. -/
def jWs (c : Char) : Bool := c = ' ' ∨ c = '\t' ∨ c = '\n' ∨ c = '\r'

def skipWs (s : List Char) : List Char := s.dropWhile jWs

def hexVal (c : Char) : Option Nat :=
  if '0' ≤ c ∧ c ≤ '9' then some (c.toNat - 48)
  else if 'a' ≤ c ∧ c ≤ 'f' then some (c.toNat - 87)
  else if 'A' ≤ c ∧ c ≤ 'F' then some (c.toNat - 55)
  else none

def dropLit (lit s : List Char) : Option (List Char) :=
  if lit.isPrefixOf s then some (s.drop lit.length) else none

/-- JSON string body (after the opening quote): ordinary characters, the
escape sequences, and the strict-mode rejection of raw control characters. -/
def jstr : Nat → List Char → Option (List Char × List Char)
  | 0, _ => none
  | _ + 1, [] => none
  | fuel + 1, c :: cs =>
    if c = '\"' then some ([], cs)
    else if c = '\\' then
      match cs with
      | [] => none
      | e :: cs' =>
        let simple : Option Char :=
          if e = '\"' then some '\"'
          else if e = '\\' then some '\\'
          else if e = '/' then some '/'
          else if e = 'b' then some '\x08'
          else if e = 'f' then some '\x0c'
          else if e = 'n' then some '\n'
          else if e = 'r' then some '\r'
          else if e = 't' then some '\t'
          else none
        match simple with
        | some d => (jstr fuel cs').map (fun p => (d :: p.1, p.2))
        | none =>
          if e = 'u' then
            match cs' with
            | d1 :: d2 :: d3 :: d4 :: cs'' =>
              match hexVal d1, hexVal d2, hexVal d3, hexVal d4 with
              | some h1, some h2, some h3, some h4 =>
                let code := ((h1 * 16 + h2) * 16 + h3) * 16 + h4
                if 0xD800 ≤ code ∧ code ≤ 0xDBFF then
                  match cs'' with
                  | '\\' :: 'u' :: e1 :: e2 :: e3 :: e4 :: cs3 =>
                    match hexVal e1, hexVal e2, hexVal e3, hexVal e4 with
                    | some g1, some g2, some g3, some g4 =>
                      let low := ((g1 * 16 + g2) * 16 + g3) * 16 + g4
                      if 0xDC00 ≤ low ∧ low ≤ 0xDFFF then
                        let cp := 0x10000 + (code - 0xD800) * 0x400 + (low - 0xDC00)
                        (jstr fuel cs3).map (fun p => (Char.ofNat cp :: p.1, p.2))
                      else
                        (jstr fuel cs'').map (fun p => (Char.ofNat 0xFFFD :: p.1, p.2))
                    | _, _, _, _ =>
                      (jstr fuel cs'').map (fun p => (Char.ofNat 0xFFFD :: p.1, p.2))
                  | _ => (jstr fuel cs'').map (fun p => (Char.ofNat 0xFFFD :: p.1, p.2))
                else
                  (jstr fuel cs'').map (fun p => (Char.ofNat code :: p.1, p.2))
              | _, _, _, _ => none
            | _ => none
          else none
    else if c.toNat < 32 then none
    else (jstr fuel cs).map (fun p => (c :: p.1, p.2))

/-- JSON number literal (returned as its raw text). -/
def jnumParse (s : List Char) : Option (List Char × List Char) :=
  let (negPart, s1) :=
    match s with
    | '-' :: rest => (['-'], rest)
    | _ => (([] : List Char), s)
  let intDigits := s1.takeWhile Char.isDigit
  if intDigits = [] then none
  else if intDigits.head? = some '0' ∧ 1 < intDigits.length then none
  else
    let s2 := s1.drop intDigits.length
    let (fracPart, s3) :=
      match s2 with
      | '.' :: r =>
        let fd := r.takeWhile Char.isDigit
        if fd = [] then (([] : List Char), s2) else ('.' :: fd, r.drop fd.length)
      | _ => (([] : List Char), s2)
    if s2 ≠ [] ∧ s2.head? = some '.' ∧ fracPart = [] then none
    else
      let (expPart, s4) :=
        match s3 with
        | e :: r =>
          if e = 'e' ∨ e = 'E' then
            let (sgn, r2) :=
              match r with
              | '+' :: r' => (['+'], r')
              | '-' :: r' => (['-'], r')
              | _ => (([] : List Char), r)
            let ed := r2.takeWhile Char.isDigit
            if ed = [] then (([] : List Char), s3)
            else (e :: (sgn ++ ed), r2.drop ed.length)
          else (([] : List Char), s3)
        | [] => (([] : List Char), s3)
      some (negPart ++ intDigits ++ fracPart ++ expPart, s4)

mutual

def jvalue : Nat → List Char → Option (JVal × List Char)
  | 0, _ => none
  | fuel + 1, s =>
    match skipWs s with
    | [] => none
    | c :: cs =>
      if c = '\x7b' then jobject fuel cs
      else if c = '[' then jarray fuel cs
      else if c = '\"' then (jstr (cs.length + 1) cs).map (fun p => (.str p.1, p.2))
      else if c = 't' then (dropLit "rue".data cs).map (fun r => (.bool true, r))
      else if c = 'f' then (dropLit "alse".data cs).map (fun r => (.bool false, r))
      else if c = 'n' then (dropLit "ull".data cs).map (fun r => (.null, r))
      else if c = 'N' then (dropLit "aN".data cs).map (fun r => (.num "NaN".data, r))
      else if c = 'I' then
        (dropLit "nfinity".data cs).map (fun r => (.num "Infinity".data, r))
      else if c = '-' ∧ "Infinity".data.isPrefixOf cs then
        some (.num "-Infinity".data, cs.drop 8)
      else (jnumParse (c :: cs)).map (fun p => (.num p.1, p.2))

def jarray : Nat → List Char → Option (JVal × List Char)
  | 0, _ => none
  | fuel + 1, s =>
    match skipWs s with
    | ']' :: rest => some (.arr [], rest)
    | _ => jarrayItems fuel s []

def jarrayItems : Nat → List Char → List JVal → Option (JVal × List Char)
  | 0, _, _ => none
  | fuel + 1, s, acc =>
    match jvalue fuel s with
    | none => none
    | some (v, rest) =>
      match skipWs rest with
      | ',' :: r2 => jarrayItems fuel r2 (acc ++ [v])
      | ']' :: r2 => some (.arr (acc ++ [v]), r2)
      | _ => none

def jobject : Nat → List Char → Option (JVal × List Char)
  | 0, _ => none
  | fuel + 1, s =>
    match skipWs s with
    | '\x7d' :: rest => some (.obj [], rest)
    | _ => jobjectItems fuel s []

def jobjectItems : Nat → List Char → List (List Char × JVal) → Option (JVal × List Char)
  | 0, _, _ => none
  | fuel + 1, s, acc =>
    match skipWs s with
    | '\"' :: cs =>
      match jstr (cs.length + 1) cs with
      | none => none
      | some (key, rest) =>
        match skipWs rest with
        | ':' :: r2 =>
          match jvalue fuel r2 with
          | none => none
          | some (v, r3) =>
            match skipWs r3 with
            | ',' :: r4 => jobjectItems fuel r4 (acc ++ [(key, v)])
            | '\x7d' :: r4 => some (.obj (acc ++ [(key, v)]), r4)
            | _ => none
        | _ => none
    | _ => none

end

/-- Model of `json.loads`: parse one value, require only whitespace after it;
`none` models a raised `JSONDecodeError`. -/
def json_loads (s : List Char) : Option JVal :=
  match jvalue (2 * s.length + 4) s with
  | some (v, rest) => if skipWs rest = [] then some v else none
  | none => none

/-!
Streaming response decoder, `parse_streaming_response` (lines 249-294).
`extract_candidate` models the body of the per-line `try` block: every check
that Python performs (`isinstance`, length guards, `startswith`) appears as a
pattern/guard, and every Python path that raises (`IndexError`, `KeyError`,
`TypeError`, `JSONDecodeError` — all caught by `except`) or fails a check
returns `none`.
-/
def extract_candidate (line : List Char) : Option (List Char) :=
  match json_loads line with
  | none => none
  | some data =>
    match data with
    | .arr (d0 :: _) =>
      match d0 with
      | .arr l0 =>
        match l0 with
        | .str w :: _ =>
          if w = "wrb.fr".data ∧ 2 < l0.length then
            match l0.get? 2 with
            | some (.str inner) =>
              if inner ≠ [] then
                match json_loads inner with
                | some (.arr parsed) =>
                  if 4 < parsed.length then
                    match parsed.get? 4 with
                    | some (.arr (first :: _)) =>
                      match first with
                      | .arr (.str rid :: frest) =>
                        if "rc_".data.isPrefixOf rid then
                          match frest with
                          | .arr (t0 :: _) :: _ =>
                            match t0 with
                            | .str text => some text
                            | _ => none
                          | _ => none
                        else none
                      | _ => none
                    | _ => none
                  else none
                | _ => none
              else none
            | _ => none
          else none
        | _ => none
      | _ => none
    | _ => none

/-- The anti-hijacking marker `)]` followed by a closing brace (line 254). -/
def antiHijackMarker : List Char := [')', ']', '\x7d']

/-- One iteration of the decoder loop: line 254 (skip empty lines and the
anti-hijacking prefix), lines 258-259 (skip length-prefix digit lines), and
lines 261-287 (candidate extraction and the longest-wins update). -/
def process_line (full_text line : List Char) : List Char :=
  if line = [] ∨ antiHijackMarker.isPrefixOf line then full_text
  else if line.all Char.isDigit then full_text
  else
    match extract_candidate line with
    | some t => if full_text.length < t.length then t else full_text
    | none => full_text

/-- The candidate text a line contributes, if any (the per-line part of
`process_line`, separated from the accumulator update). -/
def lineCandidate (line : List Char) : Option (List Char) :=
  if line = [] ∨ antiHijackMarker.isPrefixOf line then none
  else if line.all Char.isDigit then none
  else extract_candidate line

/-- Python whitespace stripped by `str.strip()` (ASCII part). -/
def pySpace (c : Char) : Bool :=
  c = ' ' ∨ c = '\t' ∨ c = '\n' ∨ c = '\r' ∨ c = '\x0b' ∨ c = '\x0c'

def pyStrip (s : List Char) : List Char :=
  ((s.dropWhile pySpace).reverse.dropWhile pySpace).reverse

/-- Python `str.split('\n')`: split at every newline, keeping empty pieces. -/
def splitNewlines : List Char → List (List Char)
  | [] => [[]]
  | c :: cs =>
    if c = '\n' then [] :: splitNewlines cs
    else
      match splitNewlines cs with
      | [] => [[c]]
      | l :: ls => (c :: l) :: ls

/-- The decoder run on an explicit line list (the loop of lines 253-294 with
the final unescaping and the `full_text if full_text else None` return). -/
def parse_streaming_lines (lines : List (List Char)) : Option (List Char) :=
  let full_text := lines.foldl process_line []
  let unescaped := if full_text ≠ [] then unescape_text full_text else full_text
  if unescaped ≠ [] then some unescaped else none

/-- `parse_streaming_response` (lines 249-294). -/
def parse_streaming_response (response_text : List Char) : Option (List Char) :=
  parse_streaming_lines (splitNewlines (pyStrip response_text))

/-- The longest-wins accumulator update (line 286-287). -/
def keepLonger (acc t : List Char) : List Char :=
  if acc.length < t.length then t else acc

def bestFold (acc : List Char) (ts : List (List Char)) : List Char :=
  ts.foldl keepLonger acc

/-- The candidate texts contributed by a stream's lines, in order. -/
def candidate_texts (lines : List (List Char)) : List (List Char) :=
  lines.filterMap lineCandidate

/-!
Regular-expression model.  Every pattern in `extract_snlm0e_token` and
`extract_build_and_session_params` is a linear sequence of character-class
pieces with quantifiers around a single capture group, so a pattern is
modelled as `RePat` (pieces before / inside / after the group) and matching
enumerates remainders in Python's backtracking preference order (greedy
longest-first, lazy shortest-first, start positions left to right); the
first full match wins, exactly as `re.search` behaves on these patterns.
-/
inductive Quant where
  | one
  | opt
  | star
  | starLazy
  | plus
  | atLeast (n : Nat)

/-- Remainders after consuming 0, 1, 2, … class characters, longest
consumption first (the greedy preference order). -/
def greedySuffixes (p : Char → Bool) : List Char → List (List Char)
  | [] => [[]]
  | c :: cs => if p c then greedySuffixes p cs ++ [c :: cs] else [c :: cs]

/-- The remainders a single quantified class piece can leave, in Python's
backtracking preference order. -/
def pieceRems (p : Char → Bool) (q : Quant) (s : List Char) : List (List Char) :=
  match q with
  | .one =>
    match s with
    | c :: cs => if p c then [cs] else []
    | [] => []
  | .opt =>
    match s with
    | c :: cs => if p c then [cs, c :: cs] else [c :: cs]
    | [] => [[]]
  | .star => greedySuffixes p s
  | .plus => (greedySuffixes p s).dropLast
  | .starLazy => (greedySuffixes p s).reverse
  | .atLeast n =>
    let g := greedySuffixes p s
    g.take (g.length - n)

/-- All remainders after matching a piece sequence at the front of `s`, in
backtracking preference order. -/
def matchAll : List ((Char → Bool) × Quant) → List Char → List (List Char)
  | [], s => [s]
  | (p, q) :: ps, s => (pieceRems p q s).flatMap (matchAll ps)

def firstSome {α : Type} : List (Option α) → Option α
  | [] => none
  | some a :: _ => some a
  | none :: os => firstSome os

structure RePat where
  pre : List ((Char → Bool) × Quant)
  grp : List ((Char → Bool) × Quant)
  post : List ((Char → Bool) × Quant)

/-- Try the whole pattern anchored at the front of `s`; on success return
the group-1 capture of the first match in backtracking order. -/
def matchCapAt (pat : RePat) (s : List Char) : Option (List Char) :=
  firstSome ((matchAll pat.pre s).map (fun r1 =>
    firstSome ((matchAll pat.grp r1).map (fun r2 =>
      if (matchAll pat.post r2).isEmpty then none
      else some (r1.take (r1.length - r2.length))))))

/-- Model of `re.search(pattern, s).group(1)`: leftmost start position wins. -/
def re_search (pat : RePat) (s : List Char) : Option (List Char) :=
  firstSome (s.tails.map (matchCapAt pat))

/-- Case-insensitive literal pieces (all token/`bl`/`fsid` searches pass
`re.IGNORECASE`). -/
def litCI (s : List Char) : List ((Char → Bool) × Quant) :=
  s.map (fun c => (fun d => d.toLower = c.toLower, Quant.one))

/-- Case-sensitive literal pieces (the `_reqid` search passes no flags). -/
def litCS (s : List Char) : List ((Char → Bool) × Quant) :=
  s.map (fun c => (fun d => d = c, Quant.one))

def clsQuoteOrApos (d : Char) : Bool := d == '\"' || d == '\''

def clsNotQuote (d : Char) : Bool := d != '\"'

def clsNotApos (d : Char) : Bool := d != '\''

def clsNotQuoteApos (d : Char) : Bool := d != '\"' && d != '\''

def clsColonOrEq (d : Char) : Bool := d == ':' || d == '='

def clsDigit (d : Char) : Bool := d.isDigit

def clsDot (d : Char) : Bool := d != '\n'

def clsUnderDash (d : Char) : Bool := d == '_' || d == '-'

def clsNotAmpQuoteApos (d : Char) : Bool := d != '&' && d != '\"' && d != '\''

def clsFsid (d : Char) : Bool := !(d == '\"' || d == '\'' || d == '&' || pySpace d)

/-- The recurring `["\']?\s*[:=]\s*["\']` bridge between key name and value. -/
def keyBridge : List ((Char → Bool) × Quant) :=
  [(clsQuoteOrApos, .opt), (pySpace, .star), (clsColonOrEq, .one),
   (pySpace, .star), (clsQuoteOrApos, .one)]

/-- The 13 `snlm0e_patterns` of `extract_snlm0e_token` (lines 13-27), in
source order. -/
def snlm0e_patterns : List RePat :=
  [ ⟨litCI "\"SNlM0e\":\"".data, [(clsNotQuote, .plus)], litCI "\"".data⟩,
    ⟨litCI "\'SNlM0e\':\'".data, [(clsNotApos, .plus)], litCI "\'".data⟩,
    ⟨litCI "SNlM0e".data ++ keyBridge, [(clsNotQuoteApos, .plus)], [(clsQuoteOrApos, .one)]⟩,
    ⟨litCI "\"FdrFJe\":\"".data, [(clsNotQuote, .plus)], litCI "\"".data⟩,
    ⟨litCI "\'FdrFJe\':\'".data, [(clsNotApos, .plus)], litCI "\'".data⟩,
    ⟨litCI "FdrFJe".data ++ keyBridge, [(clsNotQuoteApos, .plus)], [(clsQuoteOrApos, .one)]⟩,
    ⟨litCI "\"cfb2h\":\"".data, [(clsNotQuote, .plus)], litCI "\"".data⟩,
    ⟨litCI "\'cfb2h\':\'".data, [(clsNotApos, .plus)], litCI "\'".data⟩,
    ⟨litCI "cfb2h".data ++ keyBridge, [(clsNotQuoteApos, .plus)], [(clsQuoteOrApos, .one)]⟩,
    ⟨litCI "at".data ++ keyBridge, [(clsNotQuoteApos, .atLeast 50)], [(clsQuoteOrApos, .one)]⟩,
    ⟨litCI "\"at\":\"".data, [(clsNotQuote, .plus)], litCI "\"".data⟩,
    ⟨litCI "\"token\":\"".data, [(clsNotQuote, .plus)], litCI "\"".data⟩,
    ⟨litCI "data-token".data ++
       [(clsQuoteOrApos, .opt), (pySpace, .star)] ++ litCI "=".data ++
       [(pySpace, .star), (clsQuoteOrApos, .one)],
     [(clsNotQuoteApos, .plus)], [(clsQuoteOrApos, .one)]⟩ ]

/-- One iteration of the token loop (lines 29-34): first match of the
pattern, accepted only if the capture exceeds 20 characters. -/
def token_qualifier (pat : RePat) (html : List Char) : Option (List Char) :=
  match re_search pat html with
  | some tok => if 20 < tok.length then some tok else none
  | none => none

/-- `extract_snlm0e_token` (lines 12-36). -/
def extract_snlm0e_token (html : List Char) : Option (List Char) :=
  firstSome (snlm0e_patterns.map (fun pat => token_qualifier pat html))

/-- The `bl_patterns` of `extract_build_and_session_params` (lines 75-81),
in source order. -/
def bl_patterns : List RePat :=
  [ ⟨litCI "bl".data ++ keyBridge, [(clsNotQuoteApos, .plus)], [(clsQuoteOrApos, .one)]⟩,
    ⟨litCI "\"bl\":\"".data, [(clsNotQuote, .plus)], litCI "\"".data⟩,
    ⟨litCI "buildLabel".data ++ keyBridge, [(clsNotQuoteApos, .plus)], [(clsQuoteOrApos, .one)]⟩,
    ⟨litCI "boq".data ++ [(clsUnderDash, .one)] ++ litCI "assistant".data ++
       [(clsNotQuoteApos, .star)] ++ litCI "_".data,
     [(clsDigit, .plus)] ++ litCI ".".data ++ [(clsDigit, .plus), (clsNotQuoteApos, .star)],
     []⟩,
    ⟨litCI "/_/BardChatUi".data ++ [(clsDot, .starLazy)] ++ litCI "bl=".data,
     [(clsNotAmpQuoteApos, .plus)], []⟩ ]

/-- The `fsid_patterns` (lines 89-94), in source order. -/
def fsid_patterns : List RePat :=
  [ ⟨litCI "f.sid".data ++
       [(clsQuoteOrApos, .opt), (pySpace, .star), (clsColonOrEq, .one),
        (pySpace, .star), (clsQuoteOrApos, .opt)],
     [(clsFsid, .plus)], []⟩,
    ⟨litCI "\"fsid\":\"".data, [(clsNotQuote, .plus)], litCI "\"".data⟩,
    ⟨litCI "f.sid=".data, [(clsNotAmpQuoteApos, .plus)], []⟩,
    ⟨litCI "sessionId".data ++ keyBridge, [(clsNotQuoteApos, .plus)], [(clsQuoteOrApos, .one)]⟩ ]

/-- The `_reqid` pattern (line 102); this one search passes no
`re.IGNORECASE` flag, so its literal is case-sensitive. -/
def reqid_pattern : RePat :=
  ⟨litCS "_reqid".data ++
     [(clsQuoteOrApos, .opt), (pySpace, .star), (clsColonOrEq, .one),
      (pySpace, .star), (clsQuoteOrApos, .opt)],
   [(clsDigit, .plus)], []⟩

structure BuildParams where
  bl : List Char
  fsid : List Char
  reqid : Nat
deriving DecidableEq

/-- Python `int()` on a digit string. -/
def digitsToNat (ds : List Char) : Nat :=
  ds.foldl (fun n c => n * 10 + (c.toNat - 48)) 0

def default_bl : List Char := "boq_assistant-bard-web-server_20251217.07_p5".data

/-- `extract_build_and_session_params` (lines 72-115).  The two
`time.time() * 1000` reads (line 110 and line 113) are passed in as
`nowMs1` / `nowMs2`.  A parameter that is missing, or present but falsy
(`if not params.get(...)`), is replaced by its documented default. -/
def extract_build_and_session_params (nowMs1 nowMs2 : Nat) (html : List Char) :
    BuildParams :=
  let blMatch := firstSome (bl_patterns.map (fun pat => re_search pat html))
  let fsidMatch := firstSome (fsid_patterns.map (fun pat => re_search pat html))
  let reqidMatch := (re_search reqid_pattern html).map digitsToNat
  let bl :=
    match blMatch with
    | some s => if s = [] then default_bl else s
    | none => default_bl
  let fsid :=
    match fsidMatch with
    | some s => if s = [] then (toString (-(nowMs1 : Int))).data else s
    | none => (toString (-(nowMs1 : Int))).data
  let reqid :=
    match reqidMatch with
    | some n => if n = 0 then nowMs2 % 1000000 else n
    | none => nowMs2 % 1000000
  ⟨bl, fsid, reqid⟩

/-!
Payload encoder (`build_payload`, lines 170-247, and
`build_payload_with_image`, lines 353-445), the image uploader
(`upload_image`, lines 298-351) and the orchestrator's HTTP-outcome mapping
(`chat_with_gemini`, lines 519-555).  The per-call random identifiers
(`uuid.uuid4().hex`, `str(uuid.uuid4()).upper()`) and the clock reads are
passed in as parameters; `json.dumps(..., separators=(',', ':'))` is
modelled by `jdump` (compact, `ensure_ascii` escaping).
-/
def hexDigit (n : Nat) : Char :=
  if n < 10 then Char.ofNat (48 + n) else Char.ofNat (87 + n)

def hex4 (n : Nat) : List Char :=
  [hexDigit (n / 4096 % 16), hexDigit (n / 256 % 16), hexDigit (n / 16 % 16),
   hexDigit (n % 16)]

/-- Per-character escaping of `json.dumps` with its default
`ensure_ascii=True` (non-ASCII escaped to `\uXXXX`, astral code points to a
surrogate pair). -/
def jescChar (c : Char) : List Char :=
  if c = '\"' then ['\\', '\"']
  else if c = '\\' then ['\\', '\\']
  else if c = '\n' then ['\\', 'n']
  else if c = '\r' then ['\\', 'r']
  else if c = '\t' then ['\\', 't']
  else if c = '\x08' then ['\\', 'b']
  else if c = '\x0c' then ['\\', 'f']
  else if c.toNat < 32 then '\\' :: 'u' :: hex4 c.toNat
  else if c.toNat < 127 then [c]
  else if c.toNat < 65536 then '\\' :: 'u' :: hex4 c.toNat
  else
    '\\' :: 'u' :: hex4 (55296 + (c.toNat - 65536) / 1024) ++
      ('\\' :: 'u' :: hex4 (56320 + (c.toNat - 65536) % 1024))

mutual

def jdump : JVal → List Char
  | .null => "null".data
  | .bool true => "true".data
  | .bool false => "false".data
  | .num raw => raw
  | .str s => '\"' :: (charBind jescChar s ++ ['\"'])
  | .arr items => '[' :: (jdumpItems items ++ [']'])
  | .obj fields => '\x7b' :: (jdumpFields fields ++ ['\x7d'])

def jdumpItems : List JVal → List Char
  | [] => []
  | [v] => jdump v
  | v :: vs => jdump v ++ ',' :: jdumpItems vs

def jdumpFields : List (List Char × JVal) → List Char
  | [] => []
  | [(k, v)] => '\"' :: (charBind jescChar k ++ ['\"', ':']) ++ jdump v
  | (k, v) :: fs =>
    '\"' :: (charBind jescChar k ++ ['\"', ':']) ++ jdump v ++ ',' :: jdumpFields fs

end

def jn (n : Nat) : JVal := .num (toString n).data

/-- Rows 1-61 of `payload_data`; they are literally identical in
`build_payload` (lines 178-238) and `build_payload_with_image`
(lines 376-436). -/
def payload_rows_after_prompt (snlm0e session_id request_uuid : List Char) : List JVal :=
  [ .arr [.str "en-US".data],
    .arr [.str [], .str [], .str [], .null, .null, .null, .null, .null, .null, .str []],
    .str snlm0e,
    .str session_id,
    .null,
    .arr [jn 0],
    jn 1,
    .null, .null,
    jn 1,
    jn 0,
    .null, .null, .null, .null, .null,
    .arr [.arr [jn 0]],
    jn 0,
    .null, .null, .null, .null, .null, .null, .null, .null,
    jn 1,
    .null, .null,
    .arr [jn 4],
    .null, .null, .null, .null, .null, .null, .null, .null, .null, .null,
    .arr [jn 2],
    .null, .null, .null, .null, .null, .null, .null, .null, .null, .null, .null,
    jn 0,
    .null, .null, .null, .null, .null,
    .str request_uuid,
    .null,
    .arr [] ]

/-- `build_payload` (lines 170-247): returns the structured `payload_data`
together with the `f.req` form-field value
`[null,"<double-escaped compact JSON>"]`. -/
def build_payload (prompt snlm0e session_id request_uuid : List Char) :
    JVal × List Char :=
  let escaped_prompt := escape_prompt prompt
  let payload_data : JVal :=
    .arr (.arr [.str escaped_prompt, jn 0, .null, .null, .null, .null, jn 0] ::
      payload_rows_after_prompt snlm0e session_id request_uuid)
  let payload_str := jdump payload_data
  let escaped_payload := pyReplace1 '\"' ['\\', '\"'] (pyReplace1 '\\' ['\\', '\\'] payload_str)
  (payload_data, "[null,\"".data ++ escaped_payload ++ "\"]".data)

/-- `build_payload_with_image` (lines 353-445): the prompt row gains the
trailing `[[["<image_id>", 1], null]]` media sub-array (the f-string plus
`json.loads` round trip of line 372-375, for an id free of JSON
metacharacters). -/
def build_payload_with_image
    (prompt snlm0e image_id session_id request_uuid : List Char) :
    JVal × List Char :=
  let escaped_prompt := escape_prompt prompt
  let payload_data : JVal :=
    .arr (.arr [.str escaped_prompt, jn 0, .null, .null, .null, .null, jn 0, .null,
        .arr [.arr [.arr [.str image_id, jn 1], .null]]] ::
      payload_rows_after_prompt snlm0e session_id request_uuid)
  let payload_str := jdump payload_data
  let escaped_payload := pyReplace1 '\"' ['\\', '\"'] (pyReplace1 '\\' ['\\', '\\'] payload_str)
  (payload_data, "[null,\"".data ++ escaped_payload ++ "\"]".data)

/-- Case-insensitive header lookup (requests exposes response headers as a
case-insensitive mapping). -/
def headerLookup (key : List Char) (headers : List (List Char × List Char)) :
    Option (List Char) :=
  (headers.find? (fun kv => kv.1.map Char.toLower == key.map Char.toLower)).map
    (fun kv => kv.2)

/-- `upload_image` (lines 298-351), as a function of the two network
responses: the handshake response headers, and the finalize response status
and body.  If the handshake response lacks `x-goog-upload-url` the function
returns `None` (line 313-315); if the finalize status is not 200 it returns
`None` (line 327-328); otherwise line 336 returns the finalize response text
(the code after that `return` is unreachable). -/
def upload_image (startHeaders : List (List Char × List Char))
    (uploadStatus : Nat) (uploadBody : List Char) : Option (List Char) :=
  match headerLookup "x-goog-upload-url".data startHeaders with
  | none => none
  | some _ => if uploadStatus ≠ 200 then none else some uploadBody

/-- Payload selection in `chat_with_gemini` (lines 482-497): a falsy
`image_id` (absent or empty) selects the text-only `build_payload`. -/
def choose_payload (prompt snlm0e session_id request_uuid : List Char) :
    Option (List Char) → JVal × List Char
  | some image_id =>
    if image_id = [] then build_payload prompt snlm0e session_id request_uuid
    else build_payload_with_image prompt snlm0e image_id session_id request_uuid
  | none => build_payload prompt snlm0e session_id request_uuid

structure ChatMetadata where
  response_time : List Char
  timestamp : List Char
  model : List Char
  character_count : Nat
  word_count : Nat

/-- The result dictionary of `chat_with_gemini`: `success` plus the optional
`response`/`metadata`/`error` entries. -/
structure ChatOutcome where
  success : Bool
  response : Option (List Char)
  metadata : Option ChatMetadata
  error : Option (List Char)

/-- Python `str.split()` (split on whitespace runs, no empty words). -/
def pySplitWords : Nat → List Char → List (List Char)
  | 0, _ => []
  | fuel + 1, s =>
    match s.dropWhile pySpace with
    | [] => []
    | c :: cs =>
      ((c :: cs).takeWhile (fun d => !pySpace d)) ::
        pySplitWords fuel ((c :: cs).dropWhile (fun d => !pySpace d))

def pyWordCount (s : List Char) : Nat := (pySplitWords (s.length + 1) s).length

/-- The outcome mapping of `chat_with_gemini` after the POST returns
(lines 520-549): a non-200 status yields `success: False` with
`error: f'HTTP {status}'` and nothing else; otherwise the decoded stream
yields either the success dictionary with metadata or the
`'No response received from Gemini'` failure.  The float `response_time`
repr and the UTC timestamp are passed in as `elapsed`/`timestamp`. -/
def chat_http_result (status : Nat) (body : List Char)
    (elapsed timestamp : List Char) : ChatOutcome :=
  if status ≠ 200 then
    ⟨false, none, none, some ("HTTP ".data ++ (toString status).data)⟩
  else
    match parse_streaming_response body with
    | some result =>
      ⟨true, some result,
        some ⟨elapsed ++ ['s'], timestamp ++ ['Z'], "gemini".data,
          result.length, pyWordCount result⟩,
        none⟩
    | none => ⟨false, none, none, some "No response received from Gemini".data⟩

/-- A well-formed `wrb.fr` data frame line whose candidate-text position
holds `seg` (written exactly as the segment appears inside the line's
doubly-escaped inner JSON document). -/
def wrb_frame_line (seg : List Char) : List Char :=
  "[[\"wrb.fr\",null,\"[1,1,1,1,[[\\\"rc_1\\\",[\\\"".data ++ seg ++
    "\\\"]]]]\"]]".data

/-- C9 helper: the prompt row of an encoded payload. -/
def promptRow (payload : JVal) : List JVal :=
  match payload with
  | .arr (.arr row :: _) => row
  | _ => []

def jvalIsArr : JVal → Bool
  | .arr _ => true
  | _ => false

theorem pyReplace2_hit (p₁ p₂ : Char) (rep cs : List Char) :
    pyReplace2 p₁ p₂ rep (p₁ :: p₂ :: cs) = rep ++ pyReplace2 p₁ p₂ rep cs := by
  simp [pyReplace2]

theorem pyReplace2_emit (p₁ p₂ c₁ c₂ : Char) (rep cs : List Char)
    (h : ¬(c₁ = p₁ ∧ c₂ = p₂)) :
    pyReplace2 p₁ p₂ rep (c₁ :: c₂ :: cs) = c₁ :: pyReplace2 p₁ p₂ rep (c₂ :: cs) := by
  simp [pyReplace2, h]

theorem pyReplace1_append (p : Char) (rep a b : List Char) :
    pyReplace1 p rep (a ++ b) = pyReplace1 p rep a ++ pyReplace1 p rep b := by
  induction a with
  | nil => rfl
  | cons c cs ih => by_cases h : c = p <;> simp [pyReplace1, h, ih]

theorem escape_prompt_cons (c : Char) (cs : List Char) :
    escape_prompt (c :: cs) = escChar c ++ escape_prompt cs := by
  unfold escape_prompt escChar
  by_cases hb : c = '\\'
  · subst hb
    simp [pyReplace1, pyReplace1_append]
  · by_cases hq : c = '\"'
    · subst hq
      simp [pyReplace1, pyReplace1_append]
    · by_cases hn : c = '\n'
      · subst hn
        simp [pyReplace1, pyReplace1_append]
      · simp [pyReplace1, pyReplace1_append, hb, hq, hn]

theorem escape_eq_charBind (s : List Char) : escape_prompt s = charBind escChar s := by
  induction s with
  | nil => rfl
  | cons c cs ih => rw [escape_prompt_cons, charBind, ih]

theorem charBind_id (s : List Char) : charBind (fun c => [c]) s = s := by
  induction s with
  | nil => rfl
  | cons c cs ih => simp [charBind, ih]

/-- Auxiliary: the block produced by `escChar` is nonempty and, when the
source character is not `n`, never begins with `n`. -/
theorem escChar_head_ne_n (d : Char) (hd : d ≠ 'n') :
    ∃ x xs, escChar d = x :: xs ∧ x ≠ 'n' := by
  unfold escChar
  by_cases hb : d = '\\'
  · exact ⟨'\\', ['\\'], by simp [hb], by decide⟩
  · by_cases hq : d = '\"'
    · exact ⟨'\\', ['\"'], by simp [hb, hq], by decide⟩
    · by_cases hn : d = '\n'
      · exact ⟨'\\', ['n'], by simp [hb, hq, hn], by decide⟩
      · exact ⟨d, [], by simp [hb, hq, hn], hd⟩

/-- Auxiliary: the block produced by `unesc1Char` never begins with `"`. -/
theorem unesc1Char_head_ne_quote (d : Char) :
    ∃ x xs, unesc1Char d = x :: xs ∧ x ≠ '\"' := by
  unfold unesc1Char
  by_cases hb : d = '\\'
  · exact ⟨'\\', ['\\'], by simp [hb], by decide⟩
  · by_cases hq : d = '\"'
    · exact ⟨'\\', ['\"'], by simp [hb, hq], by decide⟩
    · exact ⟨d, [], by simp [hb, hq], fun h => hq h⟩

/-- Auxiliary: the block produced by `unesc2Char` begins with `\` only for `\`. -/
theorem unesc2Char_head (d : Char) (hd : d ≠ '\\') :
    ∃ x xs, unesc2Char d = x :: xs ∧ x ≠ '\\' := by
  unfold unesc2Char
  simp only [hd, if_false]
  exact ⟨d, [], rfl, hd⟩

theorem escChar_ne_nil (c : Char) : escChar c ≠ [] := by
  unfold escChar
  split_ifs <;> simp

theorem unesc1Char_ne_nil (c : Char) : unesc1Char c ≠ [] := by
  unfold unesc1Char
  split_ifs <;> simp

theorem charBind_eq_nil {f : Char → List Char} (hf : ∀ c, f c ≠ [])
    {s : List Char} (h : charBind f s = []) : s = [] := by
  cases s with
  | nil => rfl
  | cons c cs =>
    simp only [charBind] at h
    exact absurd (List.append_eq_nil.mp h).1 (hf c)

theorem not_infix_tail {l : List Char} {c : Char} {s : List Char}
    (h : ¬ l <:+: c :: s) : ¬ l <:+: s := by
  intro hin
  rcases hin with ⟨u, v, huv⟩
  exact h ⟨c :: u, v, by simp [← huv]⟩

/-- Undoing the `\n` escape on an encoder image (first decoder replace),
provided the original text never has a backslash immediately followed by `n`. -/
theorem unescape_step1 (s : List Char) (h : ¬ ['\\', 'n'] <:+: s) :
    pyReplace2 '\\' 'n' ['\n'] (charBind escChar s) = charBind unesc1Char s := by
  induction s with
  | nil => rfl
  | cons c cs ih =>
    have htail : ¬ ['\\', 'n'] <:+: cs := not_infix_tail h
    by_cases hb : c = '\\'
    · subst hb
      have hcs : ∀ d ds, cs = d :: ds → d ≠ 'n' := by
        intro d ds heq hdn
        exact h ⟨[], ds, by simp [heq, hdn]⟩
      show pyReplace2 '\\' 'n' ['\n'] ('\\' :: '\\' :: charBind escChar cs) = _
      rw [pyReplace2_emit _ _ _ _ _ _ (by intro hc; exact absurd hc.2 (by decide))]
      cases cs with
      | nil => simp [charBind, unesc1Char, pyReplace2]
      | cons d ds =>
        obtain ⟨x, xs, hx, hxn⟩ := escChar_head_ne_n d (hcs d ds rfl)
        have hexp : charBind escChar (d :: ds) = x :: (xs ++ charBind escChar ds) := by
          simp [charBind, hx]
        rw [hexp, pyReplace2_emit _ _ _ _ _ _ (by intro hc; exact hxn hc.2), ← hexp,
          ih htail]
        simp [charBind, unesc1Char]
    · by_cases hq : c = '\"'
      · subst hq
        show pyReplace2 '\\' 'n' ['\n'] ('\\' :: '\"' :: charBind escChar cs) = _
        rw [pyReplace2_emit _ _ _ _ _ _ (by intro hc; exact absurd hc.2 (by decide))]
        cases hrest : charBind escChar cs with
        | nil =>
          have h0 : cs = [] := charBind_eq_nil escChar_ne_nil hrest
          subst h0
          simp [charBind, unesc1Char, pyReplace2]
        | cons x xs =>
          rw [pyReplace2_emit _ _ _ _ _ _ (by intro hc; exact absurd hc.1 (by decide)),
            ← hrest, ih htail]
          simp [charBind, unesc1Char]
      · by_cases hn : c = '\n'
        · subst hn
          show pyReplace2 '\\' 'n' ['\n'] ('\\' :: 'n' :: charBind escChar cs) = _
          rw [pyReplace2_hit, ih htail]
          simp [charBind, unesc1Char]
        · have hcb : charBind escChar (c :: cs) = c :: charBind escChar cs := by
            simp [charBind, escChar, hb, hq, hn]
          rw [hcb]
          cases hrest : charBind escChar cs with
          | nil =>
            have h0 : cs = [] := charBind_eq_nil escChar_ne_nil hrest
            subst h0
            simp [charBind, unesc1Char, pyReplace2, hb, hq, hn]
          | cons x xs =>
            rw [pyReplace2_emit _ _ _ _ _ _ (by intro hc; exact hb hc.1), ← hrest,
              ih htail]
            simp [charBind, unesc1Char, hb, hq, hn]

/-- Undoing the `\"` escape (second decoder replace). -/
theorem unescape_step2 (s : List Char) :
    pyReplace2 '\\' '\"' ['\"'] (charBind unesc1Char s) = charBind unesc2Char s := by
  induction s with
  | nil => rfl
  | cons c cs ih =>
    by_cases hb : c = '\\'
    · subst hb
      show pyReplace2 '\\' '\"' ['\"'] ('\\' :: '\\' :: charBind unesc1Char cs) = _
      rw [pyReplace2_emit _ _ _ _ _ _ (by intro hc; exact absurd hc.2 (by decide))]
      cases cs with
      | nil => simp [charBind, unesc2Char, pyReplace2]
      | cons d ds =>
        obtain ⟨x, xs, hx, hxq⟩ := unesc1Char_head_ne_quote d
        have hexp : charBind unesc1Char (d :: ds) = x :: (xs ++ charBind unesc1Char ds) := by
          simp [charBind, hx]
        rw [hexp, pyReplace2_emit _ _ _ _ _ _ (by intro hc; exact hxq hc.2), ← hexp, ih]
        simp [charBind, unesc2Char]
    · by_cases hq : c = '\"'
      · subst hq
        show pyReplace2 '\\' '\"' ['\"'] ('\\' :: '\"' :: charBind unesc1Char cs) = _
        rw [pyReplace2_hit, ih]
        simp [charBind, unesc2Char]
      · have hcb : charBind unesc1Char (c :: cs) = c :: charBind unesc1Char cs := by
          simp [charBind, unesc1Char, hb, hq]
        rw [hcb]
        cases hrest : charBind unesc1Char cs with
        | nil =>
          have h0 : cs = [] := charBind_eq_nil unesc1Char_ne_nil hrest
          subst h0
          simp [charBind, unesc2Char, pyReplace2, hb, hq]
        | cons x xs =>
          rw [pyReplace2_emit _ _ _ _ _ _ (by intro hc; exact hb hc.1), ← hrest, ih]
          simp [charBind, unesc2Char, hb, hq]

/-- Undoing the `\\` escape (third decoder replace) recovers the original. -/
theorem unescape_step3 (s : List Char) :
    pyReplace2 '\\' '\\' ['\\'] (charBind unesc2Char s) = s := by
  induction s with
  | nil => rfl
  | cons c cs ih =>
    by_cases hb : c = '\\'
    · subst hb
      show pyReplace2 '\\' '\\' ['\\'] ('\\' :: '\\' :: charBind unesc2Char cs) = _
      rw [pyReplace2_hit, ih]
      rfl
    · have hcb : charBind unesc2Char (c :: cs) = c :: charBind unesc2Char cs := by
        simp [charBind, unesc2Char, hb]
      rw [hcb]
      cases hrest : charBind unesc2Char cs with
      | nil =>
        have : cs = [] := by
          cases cs with
          | nil => rfl
          | cons d ds =>
            exfalso
            by_cases hd : d = '\\' <;> simp [charBind, unesc2Char, hd] at hrest
        simp [this, pyReplace2]
      | cons x xs =>
        rw [pyReplace2_emit _ _ _ _ _ _ (by intro hc; exact hb hc.1), ← hrest, ih]

theorem process_line_eq (acc l : List Char) :
    process_line acc l =
      match lineCandidate l with
      | some t => keepLonger acc t
      | none => acc := by
  unfold process_line lineCandidate keepLonger
  split_ifs with h1 h2
  · rfl
  · rfl
  · cases hec : extract_candidate l <;> rfl

theorem process_line_skip (acc l : List Char) (h : lineCandidate l = none) :
    process_line acc l = acc := by
  rw [process_line_eq, h]

theorem foldl_process_eq (lines : List (List Char)) (acc : List Char) :
    lines.foldl process_line acc = bestFold acc (candidate_texts lines) := by
  induction lines generalizing acc with
  | nil => rfl
  | cons l ls ih =>
    rw [List.foldl_cons, ih]
    cases hl : lineCandidate l with
    | none =>
      rw [process_line_skip acc l hl]
      simp [candidate_texts, List.filterMap_cons, hl]
    | some t =>
      rw [process_line_eq, hl]
      simp [candidate_texts, bestFold, List.filterMap_cons, hl]

theorem bestFold_mem (acc : List Char) (ts : List (List Char)) :
    bestFold acc ts = acc ∨ bestFold acc ts ∈ ts := by
  induction ts generalizing acc with
  | nil => exact Or.inl rfl
  | cons t ts ih =>
    have hstep : bestFold acc (t :: ts) = bestFold (keepLonger acc t) ts := rfl
    rcases ih (keepLonger acc t) with h | h
    · rw [hstep, h]
      by_cases hlt : acc.length < t.length
      · exact Or.inr (by simp [keepLonger, hlt])
      · exact Or.inl (by simp [keepLonger, hlt])
    · exact Or.inr (by rw [hstep]; exact List.mem_cons_of_mem _ h)

theorem bestFold_acc_le (acc : List Char) (ts : List (List Char)) :
    acc.length ≤ (bestFold acc ts).length := by
  induction ts generalizing acc with
  | nil => exact le_refl _
  | cons t ts ih =>
    rw [bestFold, List.foldl_cons]
    refine le_trans ?_ (ih (keepLonger acc t))
    unfold keepLonger
    split_ifs with h
    · exact le_of_lt h
    · exact le_refl _

theorem bestFold_le (acc : List Char) (ts : List (List Char)) :
    ∀ t ∈ ts, t.length ≤ (bestFold acc ts).length := by
  induction ts generalizing acc with
  | nil => intro t ht; cases ht
  | cons u ts ih =>
    intro t ht
    rw [bestFold, List.foldl_cons]
    rcases List.mem_cons.mp ht with rfl | ht
    · refine le_trans ?_ (bestFold_acc_le (keepLonger acc t) ts)
      unfold keepLonger
      split_ifs with h
      · exact le_refl _
      · exact le_of_not_lt h
    · exact ih (keepLonger acc u) t ht

theorem bestFold_nil_iff (ts : List (List Char)) :
    bestFold [] ts = [] ↔ ∀ t ∈ ts, t = [] := by
  constructor
  · intro h t ht
    have := bestFold_le [] ts t ht
    rw [h] at this
    simpa using List.length_eq_zero.mp (Nat.le_zero.mp this)
  · intro h
    induction ts with
    | nil => rfl
    | cons t ts ih =>
      have ht : t = [] := h t (List.mem_cons_self _ _)
      rw [bestFold, List.foldl_cons]
      have : keepLonger [] t = [] := by simp [keepLonger, ht]
      rw [this]
      exact ih (fun u hu => h u (List.mem_cons_of_mem _ hu))

theorem firstSome_nil {α : Type} : firstSome ([] : List (Option α)) = none := rfl

theorem firstSome_cons_some {α : Type} (a : α) (os : List (Option α)) :
    firstSome (some a :: os) = some a := rfl

theorem firstSome_cons_none {α : Type} (os : List (Option α)) :
    firstSome (none :: os) = firstSome os := rfl

theorem firstSome_map_none {α β : Type} (f : α → Option β) (l : List α)
    (h : ∀ a ∈ l, f a = none) : firstSome (l.map f) = none := by
  induction l with
  | nil => rfl
  | cons a l ih =>
    rw [List.map_cons, h a (List.mem_cons_self _ _), firstSome_cons_none]
    exact ih (fun x hx => h x (List.mem_cons_of_mem _ hx))

/-- A first-success scan over a mapped list succeeds with `b` exactly when
some position holds a value accepted by `f` with result `b` while every
earlier position is rejected. -/
theorem firstSome_map_some_iff {α β : Type} (f : α → Option β) (l : List α) (b : β) :
    firstSome (l.map f) = some b ↔
      ∃ i a, l.get? i = some a ∧ f a = some b ∧
        ∀ j c, j < i → l.get? j = some c → f c = none := by
  induction l with
  | nil =>
    constructor
    · intro h
      exact absurd h (by simp [firstSome])
    · rintro ⟨i, a, h, -, -⟩
      simp at h
  | cons a l ih =>
    cases hfa : f a with
    | some b0 =>
      rw [List.map_cons, hfa, firstSome_cons_some]
      constructor
      · intro h
        refine ⟨0, a, rfl, by rw [hfa]; exact h, ?_⟩
        intro j c hj
        exact absurd hj (Nat.not_lt_zero j)
      · rintro ⟨i, aa, hget, hfaa, hmin⟩
        cases i with
        | zero =>
          simp only [List.get?_cons_zero] at hget
          obtain rfl : a = aa := by injection hget
          rw [hfa] at hfaa
          exact hfaa
        | succ i' =>
          have h0 := hmin 0 a (Nat.succ_pos i') (by simp)
          rw [hfa] at h0
          cases h0
    | none =>
      rw [List.map_cons, hfa, firstSome_cons_none, ih]
      constructor
      · rintro ⟨i, aa, hget, hfaa, hmin⟩
        refine ⟨i + 1, aa, by simpa using hget, hfaa, ?_⟩
        intro j c hj hc
        cases j with
        | zero =>
          simp only [List.get?_cons_zero] at hc
          obtain rfl : a = c := by injection hc
          exact hfa
        | succ j' =>
          exact hmin j' c (Nat.lt_of_succ_lt_succ hj) (by simpa using hc)
      · rintro ⟨i, aa, hget, hfaa, hmin⟩
        cases i with
        | zero =>
          simp only [List.get?_cons_zero] at hget
          obtain rfl : a = aa := by injection hget
          rw [hfa] at hfaa
          cases hfaa
        | succ i' =>
          refine ⟨i', aa, by simpa using hget, hfaa, ?_⟩
          intro j c hj hc
          exact hmin (j + 1) c (Nat.succ_lt_succ hj) (by simpa using hc)

theorem prefix_of_comparable {a b : List Char} (h : a <+: b ∨ b <+: a)
    (hlen : a.length ≤ b.length) : a <+: b := by
  rcases h with h | h
  · exact h
  · have heq : b = a := h.eq_of_length (le_antisymm h.length_le hlen)
    rw [heq]

theorem pyReplace2_id_of_not_mem (p₁ p₂ : Char) (rep t : List Char)
    (h : p₁ ∉ t) : pyReplace2 p₁ p₂ rep t = t := by
  induction t with
  | nil => rfl
  | cons c cs ih =>
    have hc : c ≠ p₁ := fun e => h (e ▸ List.mem_cons_self c cs)
    have htail : p₁ ∉ cs := fun hx => h (List.mem_cons_of_mem c hx)
    cases cs with
    | nil => rfl
    | cons d ds =>
      rw [pyReplace2_emit _ _ _ _ _ _ (fun hx => hc hx.1), ih htail]

/-- The decoder's unescaping is the identity on backslash-free text. -/
theorem unescape_id_of_no_bslash (t : List Char) (h : '\\' ∉ t) :
    unescape_text t = t := by
  unfold unescape_text
  rw [pyReplace2_id_of_not_mem _ _ _ _ h, pyReplace2_id_of_not_mem _ _ _ _ h,
    pyReplace2_id_of_not_mem _ _ _ _ h]

theorem foldl_process_empty (lines : List (List Char)) :
    (∀ l ∈ lines, lineCandidate l = none ∨ lineCandidate l = some []) →
    lines.foldl process_line [] = [] := by
  induction lines with
  | nil => intro _; rfl
  | cons l ls ih =>
    intro h
    have hstep : process_line [] l = [] := by
      rcases h l (List.mem_cons_self _ _) with hl | hl
      · exact process_line_skip [] l hl
      · rw [process_line_eq, hl]
        rfl
    rw [List.foldl_cons, hstep]
    exact ih (fun x hx => h x (List.mem_cons_of_mem _ hx))

/-- C1 (amended): escaping a prompt as the encoder does (backslash, then
quote, then newline) and applying the decoder's reverse rule reproduces the
original prompt exactly, for every prompt in which a backslash is never
immediately followed by the letter `n` — in particular for every prompt made
of backslash, double-quote and newline characters.  (Without that
restriction the round trip fails: a backslash-`n` pair escapes to `\\n`,
whose tail the decoder rewrites to a newline.) -/
theorem c1_escape_roundtrip (s : List Char) (h : ¬ ['\\', 'n'] <:+: s) :
    unescape_text (escape_prompt s) = s := by
  rw [escape_eq_charBind]
  unfold unescape_text
  rw [unescape_step1 s h, unescape_step2, unescape_step3]

/-- Witness for the round trip on a prompt containing backslash, quote and
newline characters. -/
theorem c1_escape_roundtrip_witness :
    ¬ ['\\', 'n'] <:+: "say \"hi\"\nC:\\temp".data ∧
    unescape_text (escape_prompt "say \"hi\"\nC:\\temp".data) =
      "say \"hi\"\nC:\\temp".data :=
  ⟨by decide, c1_escape_roundtrip _ (by decide)⟩

/-- C1 counterexample: the prompt consisting of a backslash followed by the
letter `n` contains a backslash, yet escape-then-unescape turns it into a
backslash followed by a newline. -/
theorem c1_roundtrip_counterexample :
    unescape_text (escape_prompt ['\\', 'n']) = ['\\', '\n'] ∧
    unescape_text (escape_prompt ['\\', 'n']) ≠ ['\\', 'n'] :=
  ⟨by decide, by decide⟩

/-- C3: token extraction returns the capture of the first pattern in the
fixed priority list whose first match captures more than 20 characters
(earlier-listed patterns win even when a later pattern captures a longer
string — the third conjunct shows a page where the `cfb2h` pattern captures
32 characters but the earlier `SNlM0e` capture of 22 characters is
returned); and on a page containing `"SNlM0e":"abcdEFGH12345678901234"` and
no other candidate key the extracted token is exactly that literal. -/
theorem c3_token_priority :
    (∀ html t, extract_snlm0e_token html = some t ↔
      ∃ i pat, snlm0e_patterns.get? i = some pat ∧
        token_qualifier pat html = some t ∧
        ∀ j other, j < i → snlm0e_patterns.get? j = some other →
          token_qualifier other html = none) ∧
    extract_snlm0e_token "\"SNlM0e\":\"abcdEFGH12345678901234\"".data
      = some "abcdEFGH12345678901234".data ∧
    extract_snlm0e_token
      ("\"SNlM0e\":\"abcdEFGH12345678901234\"," ++
        "\"cfb2h\":\"BBBBBBBBBBBBBBBBBBBBBBBBBBBBBBBB\"").data
      = some "abcdEFGH12345678901234".data :=
  ⟨fun html t =>
    firstSome_map_some_iff (fun pat => token_qualifier pat html) snlm0e_patterns t,
   by decide, by decide⟩

/-- C5: decoding the two-line body `5` then
`[["wrb.fr",null,"[1,1,1,1,[[\"rc_1\",[\"Hello\"]]]]"]]` yields `Hello`. -/
theorem c5_two_line_hello :
    parse_streaming_response
      "5\n[[\"wrb.fr\",null,\"[1,1,1,1,[[\\\"rc_1\\\",[\\\"Hello\\\"]]]]\"]]".data
      = some "Hello".data := by decide

/-- C6: the decoder is total — for every input it returns either a text or
absence (every Python exception path inside the loop is caught and modelled
as a skip) — and a line that yields no candidate (unparsable JSON, wrong
shape, wrong tags, noise) can be dropped anywhere without changing the
result computed from the remaining lines. -/
theorem c6_decoder_total_and_skip :
    (∀ body, parse_streaming_response body = none ∨
      ∃ t, parse_streaming_response body = some t) ∧
    (∀ pre post l, lineCandidate l = none →
      parse_streaming_lines (pre ++ l :: post) =
        parse_streaming_lines (pre ++ post)) := by
  constructor
  · intro body
    cases h : parse_streaming_response body with
    | none => exact Or.inl rfl
    | some t => exact Or.inr ⟨t, rfl⟩
  · intro pre post l hl
    unfold parse_streaming_lines
    rw [List.foldl_append, List.foldl_append, List.foldl_cons,
      process_line_skip _ l hl]

/-- Witness: a garbage line is skipped without affecting the frame after it. -/
theorem c6_decoder_total_and_skip_witness :
    lineCandidate "this line is not ( valid ) JSON".data = none ∧
    parse_streaming_lines
        ([] ++ "this line is not ( valid ) JSON".data :: [wrb_frame_line "Hi".data]) =
      parse_streaming_lines ([] ++ [wrb_frame_line "Hi".data]) :=
  ⟨by decide,
   c6_decoder_total_and_skip.2 [] [wrb_frame_line "Hi".data] _ (by decide)⟩

/-- C7: a non-200 chat transmission status yields `success: False`, no
`response` and no `metadata`, and an `error` string `HTTP <status>` that
contains the decimal status code. -/
theorem c7_http_error_status (status : Nat) (body elapsed timestamp : List Char)
    (h : status ≠ 200) :
    (chat_http_result status body elapsed timestamp).success = false ∧
    (chat_http_result status body elapsed timestamp).response = none ∧
    (chat_http_result status body elapsed timestamp).metadata = none ∧
    (chat_http_result status body elapsed timestamp).error =
      some ("HTTP ".data ++ (toString status).data) ∧
    (toString status).data <:+: "HTTP ".data ++ (toString status).data := by
  unfold chat_http_result
  rw [if_pos h]
  exact ⟨rfl, rfl, rfl, rfl, ⟨"HTTP ".data, [], by simp⟩⟩

/-- Witness: status 503 gives a failure whose error contains `503`. -/
theorem c7_http_error_status_witness :
    (chat_http_result 503 [] [] []).success = false ∧
    (chat_http_result 503 [] [] []).response = none ∧
    (chat_http_result 503 [] [] []).metadata = none ∧
    (chat_http_result 503 [] [] []).error = some "HTTP 503".data ∧
    "503".data <:+: "HTTP 503".data := by
  have h := c7_http_error_status 503 [] [] [] (by decide)
  exact ⟨h.1, h.2.1, h.2.2.1, by rw [h.2.2.2.1]; decide, by decide⟩

/-- C8: when no build-label, session-id or request-id pattern matches the
page, auxiliary parameter extraction returns the documented defaults: the
hardcoded build label, the negated millisecond timestamp as `f.sid`, and the
millisecond timestamp modulo 1000000 as `_reqid`. -/
theorem c8_param_defaults (nowMs1 nowMs2 : Nat) (html : List Char)
    (hbl : ∀ pat ∈ bl_patterns, re_search pat html = none)
    (hfs : ∀ pat ∈ fsid_patterns, re_search pat html = none)
    (hreq : re_search reqid_pattern html = none) :
    extract_build_and_session_params nowMs1 nowMs2 html =
      ⟨default_bl, (toString (-(nowMs1 : Int))).data, nowMs2 % 1000000⟩ := by
  have h1 := firstSome_map_none (fun pat => re_search pat html) bl_patterns hbl
  have h2 := firstSome_map_none (fun pat => re_search pat html) fsid_patterns hfs
  simp only [extract_build_and_session_params, h1, h2, hreq, Option.map_none']

/-- Witness: an empty page matches nothing and produces the defaults. -/
theorem c8_param_defaults_witness :
    extract_build_and_session_params 1766000000000 1766000000123 [] =
      ⟨default_bl, "-1766000000000".data, 123⟩ := by
  have h := c8_param_defaults 1766000000000 1766000000123 []
    (by decide) (by decide) (by decide)
  rw [h]
  decide

/-- C9: when the upload handshake response lacks the `x-goog-upload-url`
header, or the finalize response status is not a success, the upload returns
absence (rather than raising), the orchestrator falls back to the text-only
payload, and that payload's prompt sub-array is the plain 7-element row —
none of its entries is a sub-array, so no image sub-array is present. -/
theorem c9_upload_fallback_text_only
    (startHeaders : List (List Char × List Char)) (uploadStatus : Nat)
    (uploadBody prompt snlm0e session_id request_uuid : List Char)
    (h : headerLookup "x-goog-upload-url".data startHeaders = none ∨
      uploadStatus ≠ 200) :
    upload_image startHeaders uploadStatus uploadBody = none ∧
    choose_payload prompt snlm0e session_id request_uuid
        (upload_image startHeaders uploadStatus uploadBody) =
      build_payload prompt snlm0e session_id request_uuid ∧
    ∀ v ∈ promptRow (choose_payload prompt snlm0e session_id request_uuid
        (upload_image startHeaders uploadStatus uploadBody)).1,
      jvalIsArr v = false := by
  have h1 : upload_image startHeaders uploadStatus uploadBody = none := by
    unfold upload_image
    rcases h with h | h
    · rw [h]
    · rcases hl : headerLookup "x-goog-upload-url".data startHeaders with _ | u
      · rfl
      · rw [if_pos h]
  refine ⟨h1, by rw [h1]; rfl, ?_⟩
  intro v hv
  rw [h1] at hv
  have hrow : promptRow (choose_payload prompt snlm0e session_id request_uuid none).1 =
      [.str (escape_prompt prompt), jn 0, .null, .null, .null, .null, jn 0] := rfl
  rw [hrow] at hv
  simp only [List.mem_cons, List.not_mem_nil, or_false] at hv
  rcases hv with rfl | rfl | rfl | rfl | rfl | rfl | rfl <;> rfl

/-- Witness for both failure cases: a handshake response without the
upload-URL header, and a handshake response carrying the header whose
finalize step returns status 503. -/
theorem c9_upload_fallback_text_only_witness :
    (upload_image [] 200 "resp".data = none ∧
     choose_payload "hi".data "tok".data "sid".data "RUID".data
         (upload_image [] 200 "resp".data) =
       build_payload "hi".data "tok".data "sid".data "RUID".data ∧
     ∀ v ∈ promptRow (choose_payload "hi".data "tok".data "sid".data "RUID".data
         (upload_image [] 200 "resp".data)).1,
       jvalIsArr v = false) ∧
    (upload_image [("x-goog-upload-url".data, "u".data)] 503 "resp".data = none ∧
     choose_payload "hi".data "tok".data "sid".data "RUID".data
         (upload_image [("x-goog-upload-url".data, "u".data)] 503 "resp".data) =
       build_payload "hi".data "tok".data "sid".data "RUID".data ∧
     ∀ v ∈ promptRow (choose_payload "hi".data "tok".data "sid".data "RUID".data
         (upload_image [("x-goog-upload-url".data, "u".data)] 503 "resp".data)).1,
       jvalIsArr v = false) :=
  ⟨c9_upload_fallback_text_only [] 200 "resp".data "hi".data "tok".data
      "sid".data "RUID".data (Or.inl (by decide)),
   c9_upload_fallback_text_only [("x-goog-upload-url".data, "u".data)] 503
      "resp".data "hi".data "tok".data "sid".data "RUID".data
      (Or.inr (by decide))⟩

/-- C10: when every line of the stream contributes either no candidate or
the empty-string candidate, the decoder returns absence — an empty-string
answer is indistinguishable from a stream with no valid data frame. -/
theorem c10_empty_candidate_absence (lines : List (List Char))
    (h : ∀ l ∈ lines, lineCandidate l = none ∨ lineCandidate l = some []) :
    parse_streaming_lines lines = none := by
  have hfold := foldl_process_empty lines h
  simp [parse_streaming_lines, hfold]

/-- Witness: a stream whose single valid data frame carries the empty text
decodes to absence. -/
theorem c10_empty_candidate_absence_witness :
    lineCandidate (wrb_frame_line []) = some [] ∧
    parse_streaming_lines [wrb_frame_line []] = none :=
  ⟨by decide, c10_empty_candidate_absence [wrb_frame_line []] (by decide)⟩

/-- C2 (amended): when the decoder returns a text, that text is the
unescaping of a nonempty candidate text of maximal length among all valid
data frames; and permuting the lines of the stream leaves the decoded text
unchanged provided all candidate texts of maximal length are equal (with
distinct equal-length maximal candidates the first one seen wins, so order
matters). -/
theorem c2_longest_wins_perm :
    (∀ lines t, parse_streaming_lines lines = some t →
      ∃ c, c ∈ candidate_texts lines ∧ c ≠ [] ∧ t = unescape_text c ∧
        ∀ d ∈ candidate_texts lines, d.length ≤ c.length) ∧
    (∀ lines lines2, lines.Perm lines2 →
      (∀ c ∈ candidate_texts lines, ∀ d ∈ candidate_texts lines,
        (∀ e ∈ candidate_texts lines, e.length ≤ c.length) →
        (∀ e ∈ candidate_texts lines, e.length ≤ d.length) → c = d) →
      parse_streaming_lines lines = parse_streaming_lines lines2) := by
  constructor
  · intro lines t hs
    have e1 : lines.foldl process_line [] = bestFold [] (candidate_texts lines) :=
      foldl_process_eq lines []
    simp only [parse_streaming_lines, e1] at hs
    by_cases hB : bestFold [] (candidate_texts lines) = []
    · rw [hB] at hs
      simp at hs
    · rw [if_pos hB] at hs
      by_cases hU : unescape_text (bestFold [] (candidate_texts lines)) = []
      · rw [hU] at hs
        simp at hs
      · rw [if_pos hU] at hs
        refine ⟨bestFold [] (candidate_texts lines), ?_, hB,
          (Option.some.inj hs).symm, fun d hd => bestFold_le [] _ d hd⟩
        rcases bestFold_mem [] (candidate_texts lines) with h | h
        · exact absurd h hB
        · exact h
  · intro lines lines2 hperm htie
    have hpermC : (candidate_texts lines).Perm (candidate_texts lines2) :=
      hperm.filterMap lineCandidate
    by_cases hB : bestFold [] (candidate_texts lines) = []
    · have hall : ∀ u ∈ candidate_texts lines, u = [] := (bestFold_nil_iff _).mp hB
      have hB2 : bestFold [] (candidate_texts lines2) = [] :=
        (bestFold_nil_iff _).mpr (fun u hu => hall u (hpermC.mem_iff.mpr hu))
      have e1 : lines.foldl process_line [] = [] := (foldl_process_eq lines []).trans hB
      have e2 : lines2.foldl process_line [] = [] := (foldl_process_eq lines2 []).trans hB2
      simp [parse_streaming_lines, e1, e2]
    · have hmemB : bestFold [] (candidate_texts lines) ∈ candidate_texts lines := by
        rcases bestFold_mem [] (candidate_texts lines) with h | h
        · exact absurd h hB
        · exact h
      have hlen2 : (bestFold [] (candidate_texts lines)).length ≤
          (bestFold [] (candidate_texts lines2)).length :=
        bestFold_le [] _ _ (hpermC.mem_iff.mp hmemB)
      have hB2 : bestFold [] (candidate_texts lines2) ≠ [] := by
        intro h0
        rw [h0] at hlen2
        exact hB (List.length_eq_zero.mp (Nat.le_zero.mp hlen2))
      have hmemB2 : bestFold [] (candidate_texts lines2) ∈ candidate_texts lines := by
        rcases bestFold_mem [] (candidate_texts lines2) with h | h
        · exact absurd h hB2
        · exact hpermC.mem_iff.mpr h
      have heq : bestFold [] (candidate_texts lines) =
          bestFold [] (candidate_texts lines2) :=
        htie _ hmemB _ hmemB2
          (fun e he => bestFold_le [] _ e he)
          (fun e he => bestFold_le [] _ e (hpermC.mem_iff.mp he))
      have e1 : lines.foldl process_line [] = bestFold [] (candidate_texts lines) :=
        foldl_process_eq lines []
      have e2 : lines2.foldl process_line [] = bestFold [] (candidate_texts lines) :=
        (foldl_process_eq lines2 []).trans heq.symm
      simp only [parse_streaming_lines, e1, e2]

/-- Witness for both parts: the `Hel` / `Hello world` stream and its
permutation. -/
theorem c2_longest_wins_perm_witness :
    (∃ c, c ∈ candidate_texts
        [wrb_frame_line "Hel".data, wrb_frame_line "Hello world".data] ∧
      c ≠ [] ∧ "Hello world".data = unescape_text c ∧
      ∀ d ∈ candidate_texts
          [wrb_frame_line "Hel".data, wrb_frame_line "Hello world".data],
        d.length ≤ c.length) ∧
    parse_streaming_lines
        [wrb_frame_line "Hel".data, wrb_frame_line "Hello world".data] =
      parse_streaming_lines
        [wrb_frame_line "Hello world".data, wrb_frame_line "Hel".data] :=
  ⟨c2_longest_wins_perm.1 _ _ (by decide),
   c2_longest_wins_perm.2 _ _ (by decide) (by decide)⟩

/-- C2 counterexample: with two distinct candidates of equal maximal length
(`ab` then `cd`), permuting the two lines changes the decoded text; and for
a frame whose candidate text carries escapes, the decoder's output is the
unescaped text, not the candidate text itself. -/
theorem c2_perm_counterexample :
    (splitNewlines (pyStrip
        (wrb_frame_line "ab".data ++ '\n' :: wrb_frame_line "cd".data))).Perm
      (splitNewlines (pyStrip
        (wrb_frame_line "cd".data ++ '\n' :: wrb_frame_line "ab".data))) ∧
    parse_streaming_response
        (wrb_frame_line "ab".data ++ '\n' :: wrb_frame_line "cd".data) =
      some "ab".data ∧
    parse_streaming_response
        (wrb_frame_line "cd".data ++ '\n' :: wrb_frame_line "ab".data) =
      some "cd".data ∧
    parse_streaming_response
        (wrb_frame_line "ab".data ++ '\n' :: wrb_frame_line "cd".data) ≠
      parse_streaming_response
        (wrb_frame_line "cd".data ++ '\n' :: wrb_frame_line "ab".data) ∧
    parse_streaming_response (wrb_frame_line "a\\\\\\\\nb".data) =
      some ['a', '\n', 'b'] ∧
    candidate_texts (splitNewlines (pyStrip (wrb_frame_line "a\\\\\\\\nb".data))) =
      [['a', '\\', 'n', 'b']] ∧
    (['a', '\n', 'b'] : List Char) ≠ ['a', '\\', 'n', 'b'] := by decide

/-- C4 (amended): the decoder is a pure function, so decoding the same body
twice yields the same output; and for a stream whose candidate texts are
pairwise prefix-comparable (the host's progressive-prefix resend behaviour)
and backslash-free, decoding any sublist of its lines that yields a text
yields a prefix of (or the whole of) the full stream's text. -/
theorem c4_decode_sublist :
    (∀ body, parse_streaming_response body = parse_streaming_response body) ∧
    (∀ full sub : List (List Char), List.Sublist sub full →
      (∀ c ∈ candidate_texts full, ∀ d ∈ candidate_texts full,
        c <+: d ∨ d <+: c) →
      (∀ c ∈ candidate_texts full, '\\' ∉ c) →
      ∀ s, parse_streaming_lines sub = some s →
        ∃ t, parse_streaming_lines full = some t ∧ s <+: t) := by
  refine ⟨fun _ => rfl, ?_⟩
  intro full sub hsub hchain hbs s hs
  have hsubC : List.Sublist (candidate_texts sub) (candidate_texts full) :=
    hsub.filterMap lineCandidate
  have e1 : sub.foldl process_line [] = bestFold [] (candidate_texts sub) :=
    foldl_process_eq sub []
  simp only [parse_streaming_lines, e1] at hs
  by_cases hBs : bestFold [] (candidate_texts sub) = []
  · rw [hBs] at hs
    simp at hs
  · have hmemBs : bestFold [] (candidate_texts sub) ∈ candidate_texts sub := by
      rcases bestFold_mem [] (candidate_texts sub) with h | h
      · exact absurd h hBs
      · exact h
    have hmemBsF : bestFold [] (candidate_texts sub) ∈ candidate_texts full :=
      hsubC.subset hmemBs
    have hbsBs : '\\' ∉ bestFold [] (candidate_texts sub) := hbs _ hmemBsF
    rw [if_pos hBs, unescape_id_of_no_bslash _ hbsBs, if_pos hBs] at hs
    have hsEq : bestFold [] (candidate_texts sub) = s := Option.some.inj hs
    have hlen : (bestFold [] (candidate_texts sub)).length ≤
        (bestFold [] (candidate_texts full)).length :=
      bestFold_le [] _ _ hmemBsF
    have hBf : bestFold [] (candidate_texts full) ≠ [] := by
      intro h0
      rw [h0] at hlen
      exact hBs (List.length_eq_zero.mp (Nat.le_zero.mp hlen))
    have hmemBf : bestFold [] (candidate_texts full) ∈ candidate_texts full := by
      rcases bestFold_mem [] (candidate_texts full) with h | h
      · exact absurd h hBf
      · exact h
    have hbsBf : '\\' ∉ bestFold [] (candidate_texts full) := hbs _ hmemBf
    refine ⟨bestFold [] (candidate_texts full), ?_, ?_⟩
    · have e2 : full.foldl process_line [] = bestFold [] (candidate_texts full) :=
        foldl_process_eq full []
      simp only [parse_streaming_lines, e2]
      rw [if_pos hBf, unescape_id_of_no_bslash _ hbsBf, if_pos hBf]
    · rw [← hsEq]
      exact prefix_of_comparable (hchain _ hmemBsF _ hmemBf) hlen

/-- Witness: the `Hel` line alone is a sublist of the `Hel` / `Hello world`
stream and decodes to a prefix of the full stream's text. -/
theorem c4_decode_sublist_witness :
    ∃ t, parse_streaming_lines
        [wrb_frame_line "Hel".data, wrb_frame_line "Hello world".data] = some t ∧
      "Hel".data <+: t :=
  c4_decode_sublist.2
    [wrb_frame_line "Hel".data, wrb_frame_line "Hello world".data]
    [wrb_frame_line "Hel".data]
    (List.Sublist.cons₂ _ (List.nil_sublist _))
    (by decide) (by decide) "Hel".data (by decide)

/-- C4 counterexample: dropping the longer `bb` frame leaves the stream
decoding to `a`, which is neither a prefix of nor equal to `bb`; and even
with prefix-comparable candidates (`\` and `\n`), the final unescaping can
break the prefix relation between the subset's and the full stream's
outputs. -/
theorem c4_decode_sublist_counterexample :
    List.Sublist (splitNewlines (pyStrip (wrb_frame_line "a".data)))
      (splitNewlines (pyStrip
        (wrb_frame_line "bb".data ++ '\n' :: wrb_frame_line "a".data))) ∧
    parse_streaming_response
        (wrb_frame_line "bb".data ++ '\n' :: wrb_frame_line "a".data) =
      some "bb".data ∧
    parse_streaming_response (wrb_frame_line "a".data) = some "a".data ∧
    ¬ ("a".data <+: "bb".data) ∧ "a".data ≠ "bb".data ∧
    parse_streaming_response
        (wrb_frame_line "\\\\\\\\".data ++ '\n' :: wrb_frame_line "\\\\\\\\n".data) =
      some ['\n'] ∧
    parse_streaming_response (wrb_frame_line "\\\\\\\\".data) = some ['\\'] ∧
    ¬ (['\\'] <+: ['\n']) ∧ (['\\'] : List Char) ≠ ['\n'] := by decide
